import Mathlib

/-!
Verification development for the StochVolModels repository
(`src/stochvolmodels/pricers/logsv_pricer.py` and
`src/stochvolmodels/pricers/factor_hjm_swaption_pricer.py`).

The Python source is shallowly embedded below.  Machine floats are modelled
by exact reals (`ℝ`) where the code uses transcendental functions
(`np.exp`, `np.log`, `np.sqrt`, `np.power`) and by rationals (`ℚ`) where only
field arithmetic and comparisons occur.  Vectorised numpy operations over the
path axis act componentwise, so per-path scalar states stand for the numpy
arrays: a property proved for arbitrary scalar inputs holds for every path of
the vectorised computation.  Code of the repository that lives outside the two
source files (utility helpers, the affine-expansion engine, the payoff
aggregator, scipy's optimizer) is either modelled from the spec (marked in the
doc comment) or abstracted into a function parameter of the embedding.
-/

namespace StochVol

/-- Python exception kinds relevant to the embedded code paths. -/
inductive PyError
| assertionError
| notImplementedError
| valueError
| indexError
deriving DecidableEq, Repr

/-- Modelled from the spec: the helper `pos` imported from
`stochvolmodels.utils.funcs` (not under `src/`).  Spec 4.3: "A positivity
projection clamps the simulated vol state to >= 0 after each step (reflecting
scheme)". -/
def pos (x : ℝ) : ℝ := max x 0

/-!
## `v0_implied` (logsv_pricer.py lines 396-419)

Short-maturity approximation of the model atm vol.  `np.abs`/`np.sqrt`/
`np.square` become `|.|`, `Real.sqrt`, `^ 2`; the float literal `1e-10`
becomes `1 / 10 ^ 10`.
-/

/-- Embedding of `v0_implied(atm, beta, volvol, theta, kappa1, ttm)`:
falls back to the simplified formula when `|beta| > 1.0`, otherwise computes
the square-root expression and divides unless `|12*beta*ttm| <= 1e-10`. -/
noncomputable def v0_implied (atm beta volvol theta kappa1 ttm : ℝ) : ℝ :=
  let beta2 := beta * beta
  let volvol2 := volvol * volvol
  let vartheta2 := beta2 + volvol2
  if 1 < |beta| then
    atm - (beta2 + volvol2) * ttm / 4
  else
    let numer := -24 - beta2 * ttm - 2 * vartheta2 * ttm + 12 * kappa1 * ttm +
      Real.sqrt ((24 + beta2 * ttm + 2 * vartheta2 * ttm - 12 * kappa1 * ttm) ^ 2 -
        288 * beta * ttm * (-2 * atm + theta * kappa1 * ttm))
    let denumer := 12 * beta * ttm
    if 1 / 10 ^ 10 < |denumer| then
      numer / denumer
    else
      atm - (beta ^ 2 + volvol ^ 2) * ttm / 4

/-!
## Hurst-exponent dispatch of `LogSVPricer.simulate_vol_paths`
(logsv_pricer.py lines 316-346) and the guard prefix of
`simulate_rough_logsv_x_vol_terminal` (lines 824-874)
-/

/-- Which scheme `LogSVPricer.simulate_vol_paths` selects for a given Hurst
exponent `H`; `wrongH` stands for `raise NotImplementedError("Wrong value for H")`. -/
inductive VolPathScheme
| standard
| rough
| wrongH
deriving DecidableEq, Repr

/-- Embedding of the branch on `params.H` in `LogSVPricer.simulate_vol_paths`:
`H >= 0.5 - 1e-4` runs the standard scheme, `0.0 < H < 0.5 - 1e-4` runs the
rough scheme, anything else raises. -/
def simulate_vol_paths_H_dispatch (H : ℚ) : VolPathScheme :=
  if 1/2 - 1/10000 ≤ H then VolPathScheme.standard
  else if 0 < H ∧ H < 1/2 - 1/10000 then VolPathScheme.rough
  else VolPathScheme.wrongH

/-- Lag `kappa = 1` in `simulate_roughvol_paths` (line 695), asserted equal to 1:
the number of timesteps moved away from the kernel discontinuity at t = 0. -/
def simulate_roughvol_kappa_lag : ℕ := 1

/-- Lag `dt_kappa = 1` in `simulate_rough_logsv_x_vol_terminal` (line 873),
asserted equal to 1. -/
def simulate_rough_dt_kappa : ℕ := 1

/-- Embedding of the scalar guard prefix of
`simulate_rough_logsv_x_vol_terminal`: `assert vol_backbone_eta == 1.0`,
`assert is_spot_measure`, `alpha = H - 0.5`, `assert -0.5 < alpha <= 0.5`,
and `if alpha > 0.0: raise NotImplementedError` (the Beylkin kernel
approximation does not work for increasing kernels).  Array-shape asserts,
which depend only on the sizes of the supplied numpy arrays, are omitted. -/
def simulate_rough_logsv_guard (vol_backbone_eta : ℚ) (is_spot_measure : Bool)
    (H : ℚ) : Except PyError Unit :=
  if vol_backbone_eta ≠ 1 then Except.error PyError.assertionError
  else if ¬ is_spot_measure then Except.error PyError.assertionError
  else
    let alpha := H - 1/2
    if ¬ (-(1/2) < alpha ∧ alpha ≤ 1/2) then Except.error PyError.assertionError
    else if 0 < alpha then Except.error PyError.notImplementedError
    else Except.ok ()

/-!
## Tuple arity of the frozen-randoms plumbing (claim C5)

`get_randoms_for_chain_valuation` (logsv_pricer.py line 944) returns the
4-tuple `W0s, W1s, dts, nb_steps`, while the `CalibrationEngine.MC` branch of
`LogSVPricer.calibrate_model_params_to_chain` (line 185) binds only three
targets `W0s, W1s, dts = get_randoms_for_chain_valuation(...)`.
-/

/-- Names of the components of the tuple returned by
`get_randoms_for_chain_valuation` (source line 944). -/
def get_randoms_for_chain_valuation_returns : List String :=
  ["W0s", "W1s", "dts", "nb_steps"]

/-- Assignment targets of the tuple-unpacking statement in the MC branch of
`calibrate_model_params_to_chain` (source line 185). -/
def calibrate_mc_unpack_targets : List String :=
  ["W0s", "W1s", "dts"]

/-- Python semantics of tuple unpacking `a1, ..., an = t`: the assignment
succeeds iff the number of targets equals the arity of the tuple, otherwise a
`ValueError` is raised. -/
def py_tuple_unpack_ok (targets returns_ : List String) : Bool :=
  targets.length == returns_.length

/-!
## `calc_mc_vols` precondition checks
(factor_hjm_swaption_pricer.py lines 65-131)

The assert prefix runs before `do_mc_simulation` is invoked.  The simulation
and everything after it are abstracted into the parameters `sim` and `post`;
an error result therefore structurally precedes any simulation work.
-/

/-- Embedding of `calc_mc_vols`: the ordered assert prefix
(`len(strikes_ttms) == len(tenors)`, `len(strikes_ttms[0]) == 1`,
`len(forwards) == len(tenors)`, `fwd.shape == (1,)` for each forward,
`is_annuity_measure is False`), then the Monte-Carlo simulation `sim` and the
post-processing `post`.  Indexing an empty Python list raises `IndexError`. -/
def calc_mc_vols {Sim Out : Type} (sim : Unit → Sim) (post : Sim → Out)
    (tenors : List ℚ) (forwards : List (List ℚ))
    (strikes_ttms : List (List (List ℚ))) (is_annuity_measure : Bool) :
    Except PyError Out :=
  if strikes_ttms.length = tenors.length then
    match strikes_ttms with
    | [] => Except.error PyError.indexError
    | s0 :: _ =>
      if s0.length = 1 then
        if forwards.length = tenors.length then
          if ∀ fwd ∈ forwards, fwd.length = 1 then
            if is_annuity_measure then Except.error PyError.assertionError
            else Except.ok (post (sim ()))
          else Except.error PyError.assertionError
        else Except.error PyError.assertionError
      else Except.error PyError.assertionError
  else Except.error PyError.assertionError

/-!
## Standard (non-rough) simulators (claim C3)

`simulate_vol_paths` (logsv_pricer.py lines 621-662) and
`simulate_logsv_x_vol_terminal` (lines 730-801).  Both propagate the log-vol
variable `vol_var` and recover `sigma` by exponentiation each step.  The numpy
arrays over the path axis act componentwise; the embeddings below track one
path, with its Gaussian increments given as a list.
-/

/-- The pair of loop variables `(vol_var, sigma0)` of the standard vol
simulators: `sigma` always equals `exp vol_var` after the first update, but
initially `sigma = v0` and `vol_var = log v0`. -/
structure VolState where
  volVar : ℝ
  sigma : ℝ

/-- One iteration of the `simulate_vol_paths` loop (lines 656-660):
`vol_var += ((kappa1*theta/sigma - kappa1) + kappa2*(theta - sigma)
+ adj*sigma - 0.5*vartheta2)*dt + vartheta*w1; sigma = exp(vol_var)`. -/
noncomputable def simulate_vol_paths_step
    (theta kappa1 kappa2 adj vartheta2 vartheta dt : ℝ)
    (s : VolState) (w1 : ℝ) : VolState :=
  let volVar := s.volVar + ((kappa1 * theta / s.sigma - kappa1)
    + kappa2 * (theta - s.sigma) + adj * s.sigma - 0.5 * vartheta2) * dt
    + vartheta * w1
  ⟨volVar, Real.exp volVar⟩

/-- Embedding of `simulate_vol_paths` for one path: the returned column of
`sigma_t`, whose row 0 keeps the starting value `sigma0 = v0` and whose row
`t+1` stores `exp(vol_var)` after step `t`.  The `brownians` are the
already-`sqrt(dt)`-scaled increments, exactly as consumed by the source loop.
In the source `adj` is `0.0` under the spot measure and `beta` otherwise, and
`vartheta = sqrt(beta^2 + volvol^2)`. -/
noncomputable def simulate_vol_paths_sigma
    (v0 theta kappa1 kappa2 beta volvol : ℝ) (is_spot_measure : Bool)
    (dt : ℝ) (brownians : List ℝ) : List ℝ :=
  let adj : ℝ := if is_spot_measure then 0 else beta
  let vartheta2 := beta * beta + volvol * volvol
  let vartheta := Real.sqrt vartheta2
  (brownians.scanl
    (simulate_vol_paths_step theta kappa1 kappa2 adj vartheta2 vartheta dt)
    ⟨Real.log v0, v0⟩).map VolState.sigma

/-- The loop variables `(x0, vol_var, sigma0, qvar0)` of
`simulate_logsv_x_vol_terminal`. -/
structure LogSvTermState where
  x : ℝ
  volVar : ℝ
  sigma : ℝ
  qvar : ℝ

/-- One iteration of the `simulate_logsv_x_vol_terminal` loop (lines 789-795);
`w = (w0, w1)` are the `sqrt(dt)`-scaled increments; the quadratic variation
update uses the freshly exponentiated sigma. -/
noncomputable def simulate_logsv_x_vol_terminal_step
    (theta kappa1 kappa2 beta volvol vol_backbone_eta dt : ℝ)
    (is_spot_measure : Bool) (s : LogSvTermState) (w : ℝ × ℝ) :
    LogSvTermState :=
  let alpha : ℝ := if is_spot_measure then -1 else 1
  let adj : ℝ := if is_spot_measure then 0 else beta * vol_backbone_eta
  let vartheta2 := beta * beta + volvol * volvol
  let eta2 := vol_backbone_eta * vol_backbone_eta
  let sigma0_2dt := eta2 * s.sigma * s.sigma * dt
  let x := s.x + alpha * 0.5 * sigma0_2dt + vol_backbone_eta * s.sigma * w.1
  let volVar := s.volVar + ((kappa1 * theta / s.sigma - kappa1)
    + kappa2 * (theta - s.sigma) + adj * s.sigma - 0.5 * vartheta2) * dt
    + beta * w.1 + volvol * w.2
  let sigma := Real.exp volVar
  let qvar := s.qvar + 0.5 * (sigma0_2dt + eta2 * sigma * sigma * dt)
  ⟨x, volVar, sigma, qvar⟩

/-- Embedding of `simulate_logsv_x_vol_terminal` for one path: starting from
`(x0, log sigma0, sigma0, qvar0)`, fold the step over the raw Gaussian pairs
`W`, which the source first scales by `sdt = sqrt(dt)`
(`W0_ = sdt * W0; W1_ = sdt * W1`). -/
noncomputable def simulate_logsv_x_vol_terminal
    (theta kappa1 kappa2 beta volvol vol_backbone_eta dt : ℝ)
    (is_spot_measure : Bool) (x0 sigma0 qvar0 : ℝ) (W : List (ℝ × ℝ)) :
    LogSvTermState :=
  let sdt := Real.sqrt dt
  (W.map (fun p => (sdt * p.1, sdt * p.2))).foldl
    (simulate_logsv_x_vol_terminal_step theta kappa1 kappa2 beta volvol
      vol_backbone_eta dt is_spot_measure)
    ⟨x0, Real.log sigma0, sigma0, qvar0⟩

/-!
## Rough-volatility simulators (claim C4)

`simulate_roughvol_paths` (logsv_pricer.py lines 665-727) and
`simulate_rough_logsv_x_vol_terminal` (lines 805-917).  The sum-of-exponentials
kernel weights `c` and decay rates `gamm` are produced by `approximat_kernel`
(module `rough_kernel_approx`, outside `src/`) and enter as parameters; the
Cholesky-correlated increments `dWs[0,i]`, `dWs[1,i]` enter as the lists
`dW0s`, `dW1s`.  Again one path is tracked; numpy path-axis operations are
componentwise.
-/

/-- Kernel weights `coeff1 = c * np.exp(-gamm * kappa * dt)` with lag `kappa = 1`. -/
noncomputable def rough_coeff1 (c gamm : List ℝ) (dt : ℝ) : List ℝ :=
  List.zipWith (fun ci gi => ci * Real.exp (-gi * dt)) c gamm

/-- Kernel decay factors `coeff2 = 1.0 / (1.0 + gamm * dt)`. -/
noncomputable def rough_coeff2 (gamm : List ℝ) (dt : ℝ) : List ℝ :=
  gamm.map (fun gi => 1 / (1 + gi * dt))

/-- Drift factor `cov_matrix[1, 0] = dt ** (alpha + 1) / (alpha + 1)`. -/
noncomputable def rough_drift_factor (alpha dt : ℝ) : ℝ :=
  Real.rpow dt (alpha + 1) / (alpha + 1)

/-- Loop state of `simulate_roughvol_paths`: current vol value `Xi`, the
auxiliary kernel state `U` (one entry per exponential term), and the lagged
drift/diffusion terms `drft_prev`, `vol_prev`. -/
structure RoughPathState where
  Xi : ℝ
  U : List ℝ
  drftPrev : ℝ
  volPrev : ℝ

/-- First iteration (`i == 0`) of the `simulate_roughvol_paths` loop
(lines 711-715): Euler step from the starting value followed by the positivity
projection `pos`; `U` stays at its zero initialisation (`m` entries). -/
noncomputable def simulate_roughvol_paths_first
    (kappa1 kappa2 theta total_vol drift_factor : ℝ) (m : ℕ) (x0 w1 : ℝ) :
    RoughPathState :=
  let drft := (kappa1 + kappa2 * x0) * (theta - x0)
  let vol := total_vol * x0
  ⟨pos (x0 + drft * drift_factor + vol * w1), List.replicate m 0, drft, vol⟩

/-- Later iterations (`i > 0`) of the `simulate_roughvol_paths` loop
(lines 717-724): recursive update of `U`, reconstruction of the vol from the
base value `x0` plus the kernel sum, then the positivity projection `pos`. -/
noncomputable def simulate_roughvol_paths_next
    (kappa1 kappa2 theta total_vol drift_factor dt x0 : ℝ)
    (coeff1 coeff2 : List ℝ) (s : RoughPathState) (w0 w1 : ℝ) :
    RoughPathState :=
  let drft := (kappa1 + kappa2 * s.Xi) * (theta - s.Xi)
  let vol := total_vol * s.Xi
  let U := List.zipWith (fun c2 u => c2 * (u + s.drftPrev * dt + s.volPrev * w0))
    coeff2 s.U
  ⟨pos (x0 + (List.zipWith (fun c1 u => c1 * u) coeff1 U).sum
      + drft * drift_factor + vol * w1),
    U, drft, vol⟩

/-- Tail of the `simulate_roughvol_paths` loop: consume the remaining pairs
`(dWs[0, i-1], dWs[1, i])` and emit the stored value `X_out[i+1]` after each
step. -/
noncomputable def simulate_roughvol_paths_go
    (kappa1 kappa2 theta total_vol drift_factor dt x0 : ℝ)
    (coeff1 coeff2 : List ℝ) : RoughPathState → List (ℝ × ℝ) → List ℝ
  | _, [] => []
  | s, (w0, w1) :: ws =>
    let s' := simulate_roughvol_paths_next kappa1 kappa2 theta total_vol
      drift_factor dt x0 coeff1 coeff2 s w0 w1
    s'.Xi :: simulate_roughvol_paths_go kappa1 kappa2 theta total_vol
      drift_factor dt x0 coeff1 coeff2 s' ws

/-- Embedding of `simulate_roughvol_paths` for one path: the stored column of
`X_out`, whose row 0 keeps `x0 = sigma0 = v0` and whose row `i+1` stores the
projected vol after step `i`.  `total_vol = sqrt(beta^2 + volvol^2)`,
`alpha = H - 0.5`. -/
noncomputable def simulate_roughvol_paths_Xout
    (v0 theta kappa1 kappa2 beta volvol H dt : ℝ) (c gamm : List ℝ)
    (dW0s dW1s : List ℝ) : List ℝ :=
  let alpha := H - 0.5
  let total_vol := Real.sqrt (beta ^ 2 + volvol ^ 2)
  let drift_factor := rough_drift_factor alpha dt
  let coeff1 := rough_coeff1 c gamm dt
  let coeff2 := rough_coeff2 gamm dt
  match dW1s with
  | [] => [v0]
  | w1 :: rest =>
    let s1 := simulate_roughvol_paths_first kappa1 kappa2 theta total_vol
      drift_factor c.length v0 w1
    v0 :: s1.Xi :: simulate_roughvol_paths_go kappa1 kappa2 theta total_vol
      drift_factor dt v0 coeff1 coeff2 s1 (dW0s.zip rest)

/-- Loop state of `simulate_rough_logsv_x_vol_terminal`: log-price `x`,
current vol `sigma`, quadratic variation `qvar`, kernel state `U`, and the
lagged drift/diffusion terms. -/
structure RoughTermState where
  x : ℝ
  sigma : ℝ
  qvar : ℝ
  U : List ℝ
  drftPrev : ℝ
  volPrev : ℝ

/-- First iteration (`i == 0`) of the `simulate_rough_logsv_x_vol_terminal`
loop (lines 895-902, 912): log-price and qvar updates around the Euler vol
step with positivity projection.  At `i = 0` the loop's `sigma_i` equals the
initial `sigma0`, which is `s.sigma` here. -/
noncomputable def simulate_rough_logsv_x_vol_terminal_first
    (theta kappa1 kappa2 total_vol vol_backbone_eta dt drift_factor : ℝ)
    (s : RoughTermState) (w0 w1 : ℝ) : RoughTermState :=
  let eta2 := vol_backbone_eta * vol_backbone_eta
  let sigma2dt := eta2 * s.sigma * s.sigma * dt
  let x := s.x + 0.5 * sigma2dt + vol_backbone_eta * s.sigma * w0
  let drft := (kappa1 + kappa2 * s.sigma) * (theta - s.sigma)
  let vol := total_vol * s.sigma
  let sigma := pos (s.sigma + drft * drift_factor + vol * w1)
  let qvar := s.qvar + 0.5 * (sigma2dt + eta2 * sigma * sigma * dt)
  ⟨x, sigma, qvar, s.U, drft, vol⟩

/-- Later iterations (`i > 0`) of the `simulate_rough_logsv_x_vol_terminal`
loop (lines 896-897, 904-912): the vol is reconstructed from the constant base
`sigma_base` (the initial `sigma0`) plus the kernel sum, then projected by
`pos`; the increments are `w0` for the log-price (`dW0s[i]`), `w0ker` for the
kernel state (`dWs[0, i-1]`) and `w1` for the vol (`dWs[1, i]`). -/
noncomputable def simulate_rough_logsv_x_vol_terminal_next
    (theta kappa1 kappa2 total_vol vol_backbone_eta dt drift_factor
      sigma_base : ℝ) (coeff1 coeff2 : List ℝ) (s : RoughTermState)
    (w0 w0ker w1 : ℝ) : RoughTermState :=
  let eta2 := vol_backbone_eta * vol_backbone_eta
  let sigma2dt := eta2 * s.sigma * s.sigma * dt
  let x := s.x + 0.5 * sigma2dt + vol_backbone_eta * s.sigma * w0
  let drft := (kappa1 + kappa2 * s.sigma) * (theta - s.sigma)
  let vol := total_vol * s.sigma
  let U := List.zipWith (fun c2 u => c2 * (u + s.drftPrev * dt + s.volPrev * w0ker))
    coeff2 s.U
  let sigma := pos (sigma_base + (List.zipWith (fun c1 u => c1 * u) coeff1 U).sum
    + drft * drift_factor + vol * w1)
  let qvar := s.qvar + 0.5 * (sigma2dt + eta2 * sigma * sigma * dt)
  ⟨x, sigma, qvar, U, drft, vol⟩

/-- Tail of the `simulate_rough_logsv_x_vol_terminal` loop over the zipped
increments `(w0, (w0ker, w1))`. -/
noncomputable def simulate_rough_logsv_x_vol_terminal_go
    (theta kappa1 kappa2 total_vol vol_backbone_eta dt drift_factor
      sigma_base : ℝ) (coeff1 coeff2 : List ℝ) :
    RoughTermState → List (ℝ × ℝ × ℝ) → RoughTermState
  | s, [] => s
  | s, (w0, w0ker, w1) :: ws =>
    simulate_rough_logsv_x_vol_terminal_go theta kappa1 kappa2 total_vol
      vol_backbone_eta dt drift_factor sigma_base coeff1 coeff2
      (simulate_rough_logsv_x_vol_terminal_next theta kappa1 kappa2 total_vol
        vol_backbone_eta dt drift_factor sigma_base coeff1 coeff2 s w0 w0ker w1)
      ws

/-- Embedding of `simulate_rough_logsv_x_vol_terminal` for one path: the
terminal `(x, sigma, qvar)` state.  `W0` is the raw Gaussian stream for the
log-price, scaled inside by `sqrt(dt)` (`dW0s = np.sqrt(dt) * W0`); `dW0ker`
and `dW1` are the Cholesky-correlated kernel/vol increment streams
`dWs[0, .]` and `dWs[1, .]`. -/
noncomputable def simulate_rough_logsv_x_vol_terminal
    (theta kappa1 kappa2 beta volvol vol_backbone_eta H dt : ℝ)
    (c gamm : List ℝ) (x0 sigma0 qvar0 : ℝ) (W0 dW0ker dW1 : List ℝ) :
    RoughTermState :=
  let total_vol := Real.sqrt (beta ^ 2 + volvol ^ 2)
  let alpha := H - 0.5
  let drift_factor := rough_drift_factor alpha dt
  let coeff1 := rough_coeff1 c gamm dt
  let coeff2 := rough_coeff2 gamm dt
  let s0 : RoughTermState :=
    ⟨x0, sigma0, qvar0, List.replicate c.length 0, 0, 0⟩
  match W0, dW1 with
  | w0 :: w0rest, w1 :: w1rest =>
    let s1 := simulate_rough_logsv_x_vol_terminal_first theta kappa1 kappa2
      total_vol vol_backbone_eta dt drift_factor s0 (Real.sqrt dt * w0) w1
    simulate_rough_logsv_x_vol_terminal_go theta kappa1 kappa2 total_vol
      vol_backbone_eta dt drift_factor sigma0 coeff1 coeff2 s1
      ((w0rest.map (fun w => Real.sqrt dt * w)).zip (dW0ker.zip w1rest))
  | _, _ => s0

/-!
## Chain pricers (claims C1 and C2)

`logsv_mc_chain_pricer` (logsv_pricer.py lines 564-618),
`logsv_mc_chain_pricer_fixed_randoms` (lines 967-1030),
`logsv_roughmc_chain_pricer_fixed_randoms` (lines 1033-1103) and the transform
chain pricer `logsv_chain_pricer` (lines 426-497).

The per-slice step machinery is abstracted into function parameters:
`sim` stands for `simulate_logsv_x_vol_terminal` (respectively
`simulate_rough_logsv_x_vol_terminal`, with its internally drawn or supplied
randoms), `payoff` for `compute_mc_vars_payoff` (module `mc_payoffs`, outside
`src/`) with the per-maturity market data (forward, discount factor, strikes,
option types, backbone eta), which the source zips positionally with `ttms`,
absorbed into its maturity argument.  What remains in the embeddings is
exactly the dataflow of the source loops: which time horizon and which state
each slice call receives.  Maturities are modelled as `ℚ` (floats under field
arithmetic only).
-/

/-- The loop of `logsv_mc_chain_pricer` (lines 586-616): the accumulator
`ttm0` starts at `0.0`, each slice calls the step simulator with horizon
`ttm - ttm0` and the current `(x0, sigma0, qvar0)` state, stores the payoff of
the new state, and carries the new state and `ttm0 = ttm` forward. -/
def logsv_mc_chain_pricer_loop {S P : Type} (sim : ℚ → S → S)
    (payoff : ℚ → S → P) : ℚ → S → List ℚ → List P
  | _, _, [] => []
  | ttm0, s, ttm :: rest =>
    let s' := sim (ttm - ttm0) s
    payoff ttm s' :: logsv_mc_chain_pricer_loop sim payoff ttm s' rest

/-- Embedding of `logsv_mc_chain_pricer`: run the loop from `ttm0 = 0.0` and
the starting state (`x0 = 0`, `sigma0 = v0`, `qvar0 = 0`, abstracted as
`init`). -/
def logsv_mc_chain_pricer {S P : Type} (sim : ℚ → S → S) (payoff : ℚ → S → P)
    (init : S) (ttms : List ℚ) : List P :=
  logsv_mc_chain_pricer_loop sim payoff 0 init ttms

/-- The loop of `logsv_mc_chain_pricer_fixed_randoms` (lines 988-1028): same
dataflow as `logsv_mc_chain_pricer`, additionally zipping the per-slice frozen
randoms `(W0, W1, dt)`, abstracted as `R`; Python's `zip` truncates at the
shorter sequence. -/
def logsv_mc_chain_pricer_fixed_randoms_loop {S P R : Type}
    (sim : ℚ → R → S → S) (payoff : ℚ → S → P) :
    ℚ → S → List ℚ → List R → List P
  | _, _, [], _ => []
  | _, _, _ :: _, [] => []
  | ttm0, s, ttm :: rest, r :: rs =>
    let s' := sim (ttm - ttm0) r s
    payoff ttm s' ::
      logsv_mc_chain_pricer_fixed_randoms_loop sim payoff ttm s' rest rs

/-- Embedding of `logsv_mc_chain_pricer_fixed_randoms`. -/
def logsv_mc_chain_pricer_fixed_randoms {S P R : Type} (sim : ℚ → R → S → S)
    (payoff : ℚ → S → P) (init : S) (ttms : List ℚ) (rs : List R) : List P :=
  logsv_mc_chain_pricer_fixed_randoms_loop sim payoff 0 init ttms rs

/-- The loop of `logsv_roughmc_chain_pricer_fixed_randoms` (lines 1066-1101):
slice `j` calls the rough step simulator with the ABSOLUTE maturity `ttm`, the
per-slice `dt`, the cumulative random prefixes `W0[:nb_step_j]` and
`W1[:, :nb_step_j]` with `nb_step_j = sum(nb_steps[:j+1])`, and always the
INITIAL state `(x0, sigma0, qvar0)`; the returned `(x_t, sigma_t, qvar_t)` is
consumed by the payoff and never fed back. -/
def logsv_roughmc_chain_pricer_loop {S P : Type}
    (sim : ℚ → ℚ → List ℚ → List ℚ → S → S) (payoff : ℚ → S → P)
    (init : S) (W0 W1 : List ℚ) : ℕ → List ℚ → List ℚ → List ℕ → List P
  | _, [], _, _ => []
  | _, _ :: _, [], _ => []
  | _, _ :: _, _ :: _, [] => []
  | cum, ttm :: ts, dt :: dts, n :: ns =>
    let cum' := cum + n
    payoff ttm (sim ttm dt (W0.take cum') (W1.take cum') init) ::
      logsv_roughmc_chain_pricer_loop sim payoff init W0 W1 cum' ts dts ns

/-- Embedding of `logsv_roughmc_chain_pricer_fixed_randoms`. -/
def logsv_roughmc_chain_pricer {S P : Type}
    (sim : ℚ → ℚ → List ℚ → List ℚ → S → S) (payoff : ℚ → S → P) (init : S)
    (W0 W1 : List ℚ) (dts : List ℚ) (nbSteps : List ℕ) (ttms : List ℚ) :
    List P :=
  logsv_roughmc_chain_pricer_loop sim payoff init W0 W1 0 ttms dts nbSteps

/-- Spec-side definition (spec 4.3, "Chain valuation"): the increments fed to
the step machinery are the GAPS between consecutive maturities,
`[t1 - prev0, t2 - t1, ...]`. -/
def spec_gap_increments (prev0 : ℚ) (ttms : List ℚ) : List ℚ :=
  ttms.zipWith (fun t p => t - p) (prev0 :: ttms)

/-- Spec-side definition: the per-slice terminal states obtained by carrying
the terminal state of each maturity forward as the initial state of the next,
stepping over the gap increments. -/
def spec_chain_states {S : Type} (sim : ℚ → S → S) (init : S) (prev0 : ℚ)
    (ttms : List ℚ) : List S :=
  ((spec_gap_increments prev0 ttms).scanl (fun s gap => sim gap s) init).tail

/-- Spec-side definition: chain prices as the payoff of each maturity's
carried-forward terminal state. -/
def spec_mc_chain_prices {S P : Type} (sim : ℚ → S → S) (payoff : ℚ → S → P)
    (init : S) (prev0 : ℚ) (ttms : List ℚ) : List P :=
  List.zipWith payoff ttms (spec_chain_states sim init prev0 ttms)

/-- Spec-side definition, fixed-randoms variant: state continuation over the
gap increments zipped with the per-slice frozen randoms. -/
def spec_chain_states_fixed {S R : Type} (sim : ℚ → R → S → S) (init : S)
    (prev0 : ℚ) (ttms : List ℚ) (rs : List R) : List S :=
  (((spec_gap_increments prev0 ttms).zip rs).scanl
    (fun s gr => sim gr.1 gr.2 s) init).tail

/-- Spec-side definition, fixed-randoms variant of the chain prices. -/
def spec_mc_chain_prices_fixed {S P R : Type} (sim : ℚ → R → S → S)
    (payoff : ℚ → S → P) (init : S) (prev0 : ℚ) (ttms : List ℚ) (rs : List R) :
    List P :=
  List.zipWith payoff ttms (spec_chain_states_fixed sim init prev0 ttms rs)

/-- Reference formulation of what the rough chain pricer actually does
(the amended claim): slice `j` re-simulates from the initial time-0 state over
the absolute maturity, using the cumulative prefix `sum(nb_steps[:j+1])` of
the frozen random streams. -/
def spec_rough_chain_restart_prices {S P : Type}
    (sim : ℚ → ℚ → List ℚ → List ℚ → S → S) (payoff : ℚ → S → P) (init : S)
    (W0 W1 : List ℚ) (dts : List ℚ) (nbSteps : List ℕ) (ttms : List ℚ) :
    List P :=
  List.zipWith
    (fun (td : ℚ × ℚ) cumSteps =>
      payoff td.1 (sim td.1 td.2 (W0.take cumSteps) (W1.take cumSteps) init))
    (ttms.zip dts) ((nbSteps.scanl (· + ·) 0).tail)

/-- The loop of the transform chain pricer `logsv_chain_pricer`
(lines 452-497): the complex coefficient array `a_t0` starts at zeros
(abstracted as the initial `a : A`), each slice calls the affine-expansion
engine `afe.compute_logsv_a_mgf_grid` with the integration horizon
`ttm - ttm0`, the absolute maturity (through which the per-slice
`vol_backbone_eta` is looked up) and the current `a_t0`; the returned
`log_mgf_grid` is priced by the slice pricer (the `mgfp` vanilla or qvar
pricer with the slice's market data) and dropped, while the returned
coefficient array is carried to the next slice. -/
def logsv_chain_pricer_loop {A M P : Type} (engine : ℚ → ℚ → A → A × M)
    (slicePricer : M → ℚ → P) : ℚ → A → List ℚ → List P
  | _, _, [] => []
  | ttm0, a, ttm :: rest =>
    let am := engine (ttm - ttm0) ttm a
    slicePricer am.2 ttm :: logsv_chain_pricer_loop engine slicePricer ttm am.1 rest

/-- Embedding of `logsv_chain_pricer`. -/
def logsv_chain_pricer {A M P : Type} (engine : ℚ → ℚ → A → A × M)
    (slicePricer : M → ℚ → P) (a0 : A) (ttms : List ℚ) : List P :=
  logsv_chain_pricer_loop engine slicePricer 0 a0 ttms

/-- Spec-side definition (spec 4.1, "State continuation invariant"): the
coefficient state before slice `i` is the first component of the engine run
over the previous gaps, and slice `i`'s price uses the log-MGF grid computed
FRESH from `(gap_i, t_i, a_before_i)` — the log-MGF is never carried across
slices, only the coefficient state is. -/
def spec_transform_chain_prices {A M P : Type} (engine : ℚ → ℚ → A → A × M)
    (slicePricer : M → ℚ → P) (a0 : A) (prev0 : ℚ) (ttms : List ℚ) : List P :=
  let gts := (spec_gap_increments prev0 ttms).zip ttms
  let aPrevs := gts.scanl (fun a gt => (engine gt.1 gt.2 a).1) a0
  List.zipWith (fun (gt : ℚ × ℚ) aPrev => slicePricer (engine gt.1 gt.2 aPrev).2 gt.2)
    gts aPrevs

/-!
## Calibrator (claims C6 and C7)

`LogSVPricer.calibrate_model_params_to_chain` (logsv_pricer.py lines 114-300).
The objective body (transform or Monte-Carlo pricing of the chain) and scipy's
`minimize` are external to this embedding and enter as function parameters;
the parameter parsing, the constraint functions, the initial point and bounds
selection, and the handling of the optimizer result are embedded from the
source.
-/

/-- The model parameter fields used by the calibrator (class `LogSvParams`
lives in `logsv_params`, outside `src/`). -/
structure LogSvParams where
  sigma0 : ℝ
  theta : ℝ
  kappa1 : ℝ
  kappa2 : ℝ
  beta : ℝ
  volvol : ℝ

/-- Modelled from the spec: the `LogSvParams` constructor (module
`logsv_params`, not under `src/`) accepts `kappa2=None`; per the source
comment at line 246 ("kappa2 is mapped as kappa1 / theta") the missing value
is derived as `kappa1 / theta`. -/
noncomputable def mkLogSvParams (sigma0 theta kappa1 : ℝ) (kappa2 : Option ℝ)
    (beta volvol : ℝ) : LogSvParams :=
  ⟨sigma0, theta, kappa1, kappa2.getD (kappa1 / theta), beta, volvol⟩

/-- Modelled from the spec: the derived quantity `params.vartheta2`
(class `LogSvParams`, outside `src/`), the squared total vol-of-vol
`beta^2 + volvol^2` (spec 4.3: `total_vol = sqrt(beta**2 + volvol**2)`). -/
def LogSvParams.vartheta2 (p : LogSvParams) : ℝ :=
  p.beta * p.beta + p.volvol * p.volvol

/-- Enum `LogsvModelCalibrationType` (lines 33-37). -/
inductive LogsvModelCalibrationType
| PARAMS4
| PARAMS5
| PARAMS6
| PARAMS_WITH_VARSWAP_FIT
deriving DecidableEq, Repr

/-- Enum `ConstraintsType` (lines 40-45). -/
inductive ConstraintsType
| UNCONSTRAINT
| MMA_MARTINGALE
| INVERSE_MARTINGALE
| MMA_MARTINGALE_MOMENT4
| INVERSE_MARTINGALE_MOMENT4
deriving DecidableEq, Repr

/-- Embedding of the inner `parse_model_params` (lines 153-182): build the
trial `LogSvParams` from the optimizer vector `pars` (indexed as a function).
`PARAMS4` keeps `kappa1`, `kappa2` from `params0`; `PARAMS5` passes
`kappa2=None`; `PARAMS_WITH_VARSWAP_FIT` floats only `beta`, `volvol` (the
varswap backbone fit touches the term-structure attribute only, not these six
scalar fields); `PARAMS6` is unhandled and raises (`none`). -/
noncomputable def parse_model_params (ct : LogsvModelCalibrationType) (params0 : LogSvParams)
    (pars : ℕ → ℝ) : Option LogSvParams :=
  match ct with
  | LogsvModelCalibrationType.PARAMS4 =>
    some ⟨pars 0, pars 1, params0.kappa1, params0.kappa2, pars 2, pars 3⟩
  | LogsvModelCalibrationType.PARAMS5 =>
    some (mkLogSvParams (pars 0) (pars 1) (pars 2) none (pars 3) (pars 4))
  | LogsvModelCalibrationType.PARAMS_WITH_VARSWAP_FIT =>
    some ⟨params0.sigma0, params0.theta, params0.kappa1, params0.kappa2,
      pars 0, pars 1⟩
  | LogsvModelCalibrationType.PARAMS6 => none

/-- Embedding of the constraint function `martingale_measure` (lines 223-225):
`params.kappa2 - params.beta` of the parsed trial parameters (`none` when the
parse raises). -/
noncomputable def martingale_measure (ct : LogsvModelCalibrationType) (params0 : LogSvParams)
    (pars : ℕ → ℝ) : Option ℝ :=
  (parse_model_params ct params0 pars).map (fun p => p.kappa2 - p.beta)

/-- Embedding of the constraint function `inverse_measure` (lines 227-229):
`params.kappa2 - 2.0 * params.beta`. -/
noncomputable def inverse_measure (ct : LogsvModelCalibrationType) (params0 : LogSvParams)
    (pars : ℕ → ℝ) : Option ℝ :=
  (parse_model_params ct params0 pars).map (fun p => p.kappa2 - 2 * p.beta)

/-- Embedding of the constraint function `vol_4thmoment_finite`
(lines 231-234): `kappa1 + kappa2 * theta - 1.5 * vartheta2`. -/
noncomputable def vol_4thmoment_finite (ct : LogsvModelCalibrationType)
    (params0 : LogSvParams) (pars : ℕ → ℝ) : Option ℝ :=
  (parse_model_params ct params0 pars).map
    (fun p => (p.kappa1 + p.kappa2 * p.theta) - 1.5 * p.vartheta2)

/-- A scipy-style inequality constraint function of the trial vector,
`Option`-valued because evaluating it can raise. -/
def ConstraintFn : Type := (ℕ → ℝ) → Option ℝ

/-- The objective function of the trial vector. -/
def ObjectiveFn : Type := (ℕ → ℝ) → ℝ

/-- The part of scipy's `OptimizeResult` that the calibrator touches:
the solution vector `res.x` and the convergence flag `res.success`. -/
structure MinimizeResult where
  x : ℕ → ℝ
  success : Bool

/-- An abstract constrained minimizer standing for
`scipy.optimize.minimize(objective, p0, method='SLSQP', constraints=...,
bounds=..., options=...)`; `constraints = []` models the `constraints=None`
call. -/
def Minimizer : Type :=
  ObjectiveFn → (ℕ → ℝ) → List ConstraintFn → List (ℝ × ℝ) → MinimizeResult

/-- Embedding of the constraint registration (lines 264-275): which inequality
constraint functions are handed to the optimizer for each `ConstraintsType`. -/
noncomputable def constraints_for (cst : ConstraintsType) (ct : LogsvModelCalibrationType)
    (params0 : LogSvParams) : List ConstraintFn :=
  match cst with
  | ConstraintsType.UNCONSTRAINT => []
  | ConstraintsType.MMA_MARTINGALE => [martingale_measure ct params0]
  | ConstraintsType.INVERSE_MARTINGALE => [inverse_measure ct params0]
  | ConstraintsType.MMA_MARTINGALE_MOMENT4 =>
    [martingale_measure ct params0, vol_4thmoment_finite ct params0]
  | ConstraintsType.INVERSE_MARTINGALE_MOMENT4 =>
    [inverse_measure ct params0, vol_4thmoment_finite ct params0]

/-- Embedding of the initial-point and bounds selection (lines 237-260);
`PARAMS6` raises (`none`). -/
def p0_bounds (ct : LogsvModelCalibrationType)
    (params0 params_min params_max : LogSvParams) :
    Option ((ℕ → ℝ) × List (ℝ × ℝ)) :=
  match ct with
  | LogsvModelCalibrationType.PARAMS4 =>
    some (fun i => [params0.sigma0, params0.theta, params0.beta,
        params0.volvol].getD i 0,
      [(params_min.sigma0, params_max.sigma0),
       (params_min.theta, params_max.theta),
       (params_min.beta, params_max.beta),
       (params_min.volvol, params_max.volvol)])
  | LogsvModelCalibrationType.PARAMS5 =>
    some (fun i => [params0.sigma0, params0.theta, params0.kappa1,
        params0.beta, params0.volvol].getD i 0,
      [(params_min.sigma0, params_max.sigma0),
       (params_min.theta, params_max.theta),
       (params_min.kappa1, params_max.kappa1),
       (params_min.beta, params_max.beta),
       (params_min.volvol, params_max.volvol)])
  | LogsvModelCalibrationType.PARAMS_WITH_VARSWAP_FIT =>
    some (fun i => [params0.beta, params0.volvol].getD i 0,
      [(params_min.beta, params_max.beta),
       (params_min.volvol, params_max.volvol)])
  | LogsvModelCalibrationType.PARAMS6 => none

/-- Embedding of the tail of `calibrate_model_params_to_chain`
(lines 292-300): run the (abstract) minimizer on the objective with the
registered constraints and bounds, then return `parse_model_params(res.x)`.
The convergence flag `res.success` is never consulted and the return value
carries only the parsed parameters. -/
noncomputable def calibrate_model_params_to_chain (minimize : Minimizer)
    (objective : ObjectiveFn) (ct : LogsvModelCalibrationType)
    (cst : ConstraintsType) (params0 params_min params_max : LogSvParams) :
    Option LogSvParams :=
  match p0_bounds ct params0 params_min params_max with
  | none => none
  | some pb =>
    let res := minimize objective pb.1 (constraints_for cst ct params0) pb.2
    parse_model_params ct params0 res.x

/-!
## Helper lemmas
-/

/-- The positivity projection is non-negative. -/
theorem pos_nonneg (x : ℝ) : 0 ≤ pos x := le_max_right x 0

/-- Zipping a cons against a `scanl` splits off the `scanl` seed. -/
theorem zipWith_cons_scanl {α β γ δ : Type _} (payoff : α → β → γ)
    (f : β → δ → β) (b : β) (a : α) (l : List α) (m : List δ) :
    List.zipWith payoff (a :: l) (List.scanl f b m) =
      payoff a b :: List.zipWith payoff l (List.scanl f b m).tail := by
  cases m <;> simp

/-- Each update of the standard vol-path loop exponentiates the log-vol, so
the updated sigma is positive. -/
theorem simulate_vol_paths_step_sigma_pos
    (theta kappa1 kappa2 adj vartheta2 vartheta dt : ℝ) (s : VolState)
    (w1 : ℝ) :
    0 < (simulate_vol_paths_step theta kappa1 kappa2 adj vartheta2 vartheta dt
      s w1).sigma := by
  unfold simulate_vol_paths_step
  exact Real.exp_pos _

/-- All states along the standard vol-path scan have positive sigma, provided
the seed does. -/
theorem scanl_vol_paths_sigma_pos
    (theta kappa1 kappa2 adj vartheta2 vartheta dt : ℝ) :
    ∀ (l : List ℝ) (s : VolState), 0 < s.sigma →
      ∀ y ∈ (l.scanl (simulate_vol_paths_step theta kappa1 kappa2 adj
        vartheta2 vartheta dt) s).map VolState.sigma, 0 < y := by
  intro l
  induction l with
  | nil =>
    intro s hs y hy
    simp at hy
    simpa [hy] using hs
  | cons w ws ih =>
    intro s hs y hy
    simp only [List.scanl_cons, List.singleton_append, List.map_cons,
      List.mem_cons] at hy
    rcases hy with hy | hy
    · simpa [hy] using hs
    · exact ih _ (simulate_vol_paths_step_sigma_pos theta kappa1 kappa2 adj
        vartheta2 vartheta dt s w) y (by simpa using hy)

/-- Each update of the terminal standard simulator exponentiates the log-vol,
so the updated sigma is positive. -/
theorem simulate_logsv_x_vol_terminal_step_sigma_pos
    (theta kappa1 kappa2 beta volvol vol_backbone_eta dt : ℝ)
    (is_spot_measure : Bool) (s : LogSvTermState) (w : ℝ × ℝ) :
    0 < (simulate_logsv_x_vol_terminal_step theta kappa1 kappa2 beta volvol
      vol_backbone_eta dt is_spot_measure s w).sigma := by
  unfold simulate_logsv_x_vol_terminal_step
  exact Real.exp_pos _

/-- Folding the terminal standard step preserves positivity of sigma. -/
theorem foldl_logsv_terminal_sigma_pos
    (theta kappa1 kappa2 beta volvol vol_backbone_eta dt : ℝ)
    (is_spot_measure : Bool) :
    ∀ (l : List (ℝ × ℝ)) (s : LogSvTermState), 0 < s.sigma →
      0 < (l.foldl (simulate_logsv_x_vol_terminal_step theta kappa1 kappa2
        beta volvol vol_backbone_eta dt is_spot_measure) s).sigma := by
  intro l
  induction l with
  | nil => intro s hs; simpa using hs
  | cons w ws ih =>
    intro s _
    simp only [List.foldl_cons]
    exact ih _ (simulate_logsv_x_vol_terminal_step_sigma_pos theta kappa1
      kappa2 beta volvol vol_backbone_eta dt is_spot_measure s w)

/-- Every value emitted by the tail loop of the rough path simulator has been
projected by `pos`, hence is non-negative. -/
theorem simulate_roughvol_paths_go_mem_nonneg
    (kappa1 kappa2 theta total_vol drift_factor dt x0 : ℝ)
    (coeff1 coeff2 : List ℝ) :
    ∀ (ws : List (ℝ × ℝ)) (s : RoughPathState),
      ∀ y ∈ simulate_roughvol_paths_go kappa1 kappa2 theta total_vol
        drift_factor dt x0 coeff1 coeff2 s ws, 0 ≤ y := by
  intro ws
  induction ws with
  | nil => intro s y hy; simp [simulate_roughvol_paths_go] at hy
  | cons w rest ih =>
    intro s y hy
    obtain ⟨w0, w1⟩ := w
    simp only [simulate_roughvol_paths_go, List.mem_cons] at hy
    rcases hy with hy | hy
    · rw [hy]
      exact pos_nonneg _
    · exact ih _ y hy

/-- Folding the tail loop of the rough terminal simulator preserves
non-negativity of sigma (every update ends in the `pos` projection). -/
theorem simulate_rough_logsv_go_sigma_nonneg
    (theta kappa1 kappa2 total_vol vol_backbone_eta dt drift_factor
      sigma_base : ℝ) (coeff1 coeff2 : List ℝ) :
    ∀ (ws : List (ℝ × ℝ × ℝ)) (s : RoughTermState), 0 ≤ s.sigma →
      0 ≤ (simulate_rough_logsv_x_vol_terminal_go theta kappa1 kappa2
        total_vol vol_backbone_eta dt drift_factor sigma_base coeff1 coeff2
        s ws).sigma := by
  intro ws
  induction ws with
  | nil => intro s hs; simpa [simulate_rough_logsv_x_vol_terminal_go] using hs
  | cons w rest ih =>
    intro s _
    obtain ⟨w0, w0ker, w1⟩ := w
    simp only [simulate_rough_logsv_x_vol_terminal_go]
    exact ih _ (pos_nonneg _)

/-!
## Claim C3
-/

/-- Claim C3 (corrected): in the standard (non-rough) simulators the vol state
is propagated as the log-vol variable and recovered by exponentiation, so for
every path and every step the simulated vol stays strictly positive with no
clipping, for any drift/diffusion parameter values and any Gaussian
increments, PROVIDED the initial vol is strictly positive (`v0 > 0`,
respectively every entry of the initial sigma array positive): row 0 of the
returned path grid stores the initial value itself, so positivity cannot hold
for arbitrary (non-positive) initial vol parameters. -/
theorem C3_standard_vol_positive
    (v0 theta kappa1 kappa2 beta volvol : ℝ) (is_spot_measure : Bool)
    (dt : ℝ) (brownians : List ℝ)
    (theta' kappa1' kappa2' beta' volvol' vol_backbone_eta dt' : ℝ)
    (is_spot' : Bool) (x0 sigma0 qvar0 : ℝ) (W : List (ℝ × ℝ))
    (hv0 : 0 < v0) (hsigma0 : 0 < sigma0) :
    (∀ y ∈ simulate_vol_paths_sigma v0 theta kappa1 kappa2 beta volvol
      is_spot_measure dt brownians, 0 < y) ∧
    0 < (simulate_logsv_x_vol_terminal theta' kappa1' kappa2' beta' volvol'
      vol_backbone_eta dt' is_spot' x0 sigma0 qvar0 W).sigma := by
  constructor
  · intro y hy
    unfold simulate_vol_paths_sigma at hy
    exact scanl_vol_paths_sigma_pos _ _ _ _ _ _ _ brownians _ hv0 y hy
  · unfold simulate_logsv_x_vol_terminal
    exact foldl_logsv_terminal_sigma_pos _ _ _ _ _ _ _ _ _ _ hsigma0

/-- Witness for C3 at concrete inputs: one step with unit parameters. -/
theorem C3_standard_vol_positive_witness :
    0 < (1 : ℝ) ∧
    ((∀ y ∈ simulate_vol_paths_sigma 1 1 1 1 1 1 true 1 [0], 0 < y) ∧
      0 < (simulate_logsv_x_vol_terminal 1 1 1 1 1 1 1 true 0 1 0
        [(0, 0)]).sigma) :=
  ⟨by norm_num,
    C3_standard_vol_positive 1 1 1 1 1 1 true 1 [0] 1 1 1 1 1 1 1 true 0 1 0
      [(0, 0)] (by norm_num) (by norm_num)⟩

/-- Counterexample to claim C3 as stated ("for any parameter values"): with
initial vol `v0 = -1` the stored vol path contains the non-positive entry
`-1` (row 0 of `sigma_t` keeps the starting value). -/
theorem C3_counterexample :
    ((-1 : ℝ) ∈ simulate_vol_paths_sigma (-1) 0 0 0 0 0 true 1 []) ∧
      ¬ (0 < (-1 : ℝ)) := by
  constructor
  · unfold simulate_vol_paths_sigma
    simp
  · norm_num

/-!
## Claim C4
-/

/-- Claim C4 (confirmed): in the rough-volatility simulators every vol state
stored after the positivity projection at the end of a step is non-negative,
for every path, every step, any parameter values, any kernel-approximation
coefficients and any Gaussian increments: every entry of the returned
`X_out` grid after row 0, and the terminal sigma whenever at least one step
is taken. -/
theorem C4_rough_vol_nonneg :
    (∀ (v0 theta kappa1 kappa2 beta volvol H dt : ℝ) (c gamm : List ℝ)
        (dW0s dW1s : List ℝ),
      ∀ y ∈ (simulate_roughvol_paths_Xout v0 theta kappa1 kappa2 beta volvol
        H dt c gamm dW0s dW1s).tail, 0 ≤ y) ∧
    (∀ (theta kappa1 kappa2 beta volvol vol_backbone_eta H dt : ℝ)
        (c gamm : List ℝ) (x0 sigma0 qvar0 : ℝ) (w0 : ℝ) (W0rest : List ℝ)
        (dW0ker : List ℝ) (w1 : ℝ) (dW1rest : List ℝ),
      0 ≤ (simulate_rough_logsv_x_vol_terminal theta kappa1 kappa2 beta volvol
        vol_backbone_eta H dt c gamm x0 sigma0 qvar0 (w0 :: W0rest) dW0ker
        (w1 :: dW1rest)).sigma) := by
  constructor
  · intro v0 theta kappa1 kappa2 beta volvol H dt c gamm dW0s dW1s y hy
    unfold simulate_roughvol_paths_Xout at hy
    cases dW1s with
    | nil => simp at hy
    | cons w1 rest =>
      simp only [List.tail_cons, List.mem_cons] at hy
      rcases hy with hy | hy
      · rw [hy]
        unfold simulate_roughvol_paths_first
        exact pos_nonneg _
      · exact simulate_roughvol_paths_go_mem_nonneg _ _ _ _ _ _ _ _ _ _ _ y hy
  · intro theta kappa1 kappa2 beta volvol vol_backbone_eta H dt c gamm x0
      sigma0 qvar0 w0 W0rest dW0ker w1 dW1rest
    unfold simulate_rough_logsv_x_vol_terminal
    exact simulate_rough_logsv_go_sigma_nonneg _ _ _ _ _ _ _ _ _ _ _ _
      (by unfold simulate_rough_logsv_x_vol_terminal_first; exact pos_nonneg _)

/-- Witness for C4 at concrete inputs: one step of the rough terminal
simulator with unit parameters. -/
theorem C4_rough_vol_nonneg_witness :
    0 ≤ (simulate_rough_logsv_x_vol_terminal 1 1 1 1 1 1 (1/4) 1 [] [] 0 1 0
      [1] [] [1]).sigma :=
  C4_rough_vol_nonneg.2 1 1 1 1 1 1 (1/4) 1 [] [] 0 1 0 1 [] [] 1 []

/-!
## Claims C1 and C2
-/

/-- The standard fresh-randoms chain loop equals the spec-side gap/state
continuation, for any previous-maturity accumulator. -/
theorem logsv_mc_chain_pricer_loop_eq_spec {S P : Type} (sim : ℚ → S → S)
    (payoff : ℚ → S → P) :
    ∀ (ttms : List ℚ) (ttm0 : ℚ) (s : S),
      logsv_mc_chain_pricer_loop sim payoff ttm0 s ttms =
        spec_mc_chain_prices sim payoff s ttm0 ttms := by
  intro ttms
  induction ttms with
  | nil =>
    intro ttm0 s
    simp [logsv_mc_chain_pricer_loop, spec_mc_chain_prices, spec_chain_states,
      spec_gap_increments]
  | cons ttm rest ih =>
    intro ttm0 s
    simp only [logsv_mc_chain_pricer_loop, spec_mc_chain_prices,
      spec_chain_states, spec_gap_increments, List.zipWith_cons_cons,
      List.scanl_cons, List.singleton_append, List.tail_cons]
    rw [zipWith_cons_scanl]
    exact congrArg _ (ih ttm (sim (ttm - ttm0) s))

/-- The standard fixed-randoms chain loop equals the spec-side gap/state
continuation zipped with the per-slice frozen randoms. -/
theorem logsv_mc_chain_pricer_fixed_loop_eq_spec {S P R : Type}
    (sim : ℚ → R → S → S) (payoff : ℚ → S → P) :
    ∀ (ttms : List ℚ) (rs : List R) (ttm0 : ℚ) (s : S),
      logsv_mc_chain_pricer_fixed_randoms_loop sim payoff ttm0 s ttms rs =
        spec_mc_chain_prices_fixed sim payoff s ttm0 ttms rs := by
  intro ttms
  induction ttms with
  | nil =>
    intro rs ttm0 s
    simp [logsv_mc_chain_pricer_fixed_randoms_loop, spec_mc_chain_prices_fixed,
      spec_chain_states_fixed, spec_gap_increments]
  | cons ttm rest ih =>
    intro rs ttm0 s
    cases rs with
    | nil =>
      simp [logsv_mc_chain_pricer_fixed_randoms_loop,
        spec_mc_chain_prices_fixed, spec_chain_states_fixed,
        spec_gap_increments]
    | cons r rs' =>
      simp only [logsv_mc_chain_pricer_fixed_randoms_loop,
        spec_mc_chain_prices_fixed, spec_chain_states_fixed,
        spec_gap_increments, List.zipWith_cons_cons, List.zip_cons_cons,
        List.scanl_cons, List.singleton_append, List.tail_cons]
      rw [zipWith_cons_scanl]
      exact congrArg _ (ih rs' ttm (sim (ttm - ttm0) r s))

/-- The rough chain loop equals the restart formulation: absolute maturities,
always the initial state, cumulative random prefixes. -/
theorem logsv_roughmc_chain_pricer_loop_eq_spec {S P : Type}
    (sim : ℚ → ℚ → List ℚ → List ℚ → S → S) (payoff : ℚ → S → P) (init : S)
    (W0 W1 : List ℚ) :
    ∀ (ttms dts : List ℚ) (ns : List ℕ) (cum : ℕ),
      logsv_roughmc_chain_pricer_loop sim payoff init W0 W1 cum ttms dts ns =
        List.zipWith
          (fun (td : ℚ × ℚ) cumSteps =>
            payoff td.1
              (sim td.1 td.2 (W0.take cumSteps) (W1.take cumSteps) init))
          (ttms.zip dts) ((ns.scanl (· + ·) cum).tail) := by
  intro ttms
  induction ttms with
  | nil => intro dts ns cum; simp [logsv_roughmc_chain_pricer_loop]
  | cons ttm ts ih =>
    intro dts ns cum
    cases dts with
    | nil => simp [logsv_roughmc_chain_pricer_loop]
    | cons dt dts' =>
      cases ns with
      | nil => simp [logsv_roughmc_chain_pricer_loop]
      | cons n ns' =>
        simp only [logsv_roughmc_chain_pricer_loop, List.zip_cons_cons,
          List.scanl_cons, List.singleton_append, List.tail_cons]
        rw [zipWith_cons_scanl]
        exact congrArg _ (ih dts' ns' (cum + n))

/-- Claim C1 (corrected): the two standard Monte-Carlo chain pricers (fresh
and fixed randoms) iterate maturities in list order, pass the gap
`t_i - t_{i-1}` as the horizon to the per-slice step simulator and feed each
slice's terminal state forward as the next slice's initial state; the rough
chain pricer does NOT: it passes the ABSOLUTE maturity `t_i` and always the
initial time-0 state, re-simulating each slice from scratch on the cumulative
prefix `sum(nb_steps[:i+1])` of the frozen random streams. -/
theorem C1_chain_dataflow :
    (∀ (S P : Type) (sim : ℚ → S → S) (payoff : ℚ → S → P) (init : S)
        (ttms : List ℚ),
      logsv_mc_chain_pricer sim payoff init ttms =
        spec_mc_chain_prices sim payoff init 0 ttms) ∧
    (∀ (S P R : Type) (sim : ℚ → R → S → S) (payoff : ℚ → S → P) (init : S)
        (ttms : List ℚ) (rs : List R),
      logsv_mc_chain_pricer_fixed_randoms sim payoff init ttms rs =
        spec_mc_chain_prices_fixed sim payoff init 0 ttms rs) ∧
    (∀ (S P : Type) (sim : ℚ → ℚ → List ℚ → List ℚ → S → S)
        (payoff : ℚ → S → P) (init : S) (W0 W1 dts : List ℚ)
        (nbSteps : List ℕ) (ttms : List ℚ),
      logsv_roughmc_chain_pricer sim payoff init W0 W1 dts nbSteps ttms =
        spec_rough_chain_restart_prices sim payoff init W0 W1 dts nbSteps
          ttms) := by
  refine ⟨?_, ?_, ?_⟩
  · intro S P sim payoff init ttms
    exact logsv_mc_chain_pricer_loop_eq_spec sim payoff ttms 0 init
  · intro S P R sim payoff init ttms rs
    exact logsv_mc_chain_pricer_fixed_loop_eq_spec sim payoff ttms rs 0 init
  · intro S P sim payoff init W0 W1 dts nbSteps ttms
    exact logsv_roughmc_chain_pricer_loop_eq_spec sim payoff init W0 W1 ttms
      dts nbSteps 0

/-- Counterexample to claim C1 as stated: instantiate the rough chain pricer
with a step simulator that returns the time horizon it receives and a payoff
that reads the state.  On the maturity chain `[1, 2]` the pricer outputs
`[1, 2]` — the second slice's simulator call received the absolute maturity
`2` and the initial state — whereas the gap/state-continuation semantics the
claim asserts (the same step behaviour threaded over gaps) yields `[1, 1]`. -/
theorem C1_counterexample :
    logsv_roughmc_chain_pricer (S := ℚ) (P := ℚ)
        (fun ttm _dt _w0 _w1 _s => ttm) (fun _ s => s) 0 [] [] [1, 1] [0, 0]
        [1, 2] = [1, 2] ∧
      spec_mc_chain_prices (S := ℚ) (P := ℚ) (fun gap _s => gap)
        (fun _ s => s) 0 0 [1, 2] = [1, 1] ∧
      ([1, 2] : List ℚ) ≠ [1, 1] := by
  refine ⟨rfl, ?_, by norm_num⟩
  norm_num [spec_mc_chain_prices, spec_chain_states, spec_gap_increments]

/-- The transform chain loop equals the spec-side formulation: coefficient
state continued across slices, log-MGF computed fresh per slice from the gap,
the absolute maturity and the carried coefficient state. -/
theorem logsv_chain_pricer_loop_eq_spec {A M P : Type}
    (engine : ℚ → ℚ → A → A × M) (slicePricer : M → ℚ → P) :
    ∀ (ttms : List ℚ) (ttm0 : ℚ) (a : A),
      logsv_chain_pricer_loop engine slicePricer ttm0 a ttms =
        spec_transform_chain_prices engine slicePricer a ttm0 ttms := by
  intro ttms
  induction ttms with
  | nil =>
    intro ttm0 a
    simp [logsv_chain_pricer_loop, spec_transform_chain_prices,
      spec_gap_increments]
  | cons ttm rest ih =>
    intro ttm0 a
    simp only [logsv_chain_pricer_loop, spec_transform_chain_prices,
      spec_gap_increments, List.zipWith_cons_cons, List.zip_cons_cons,
      List.scanl_cons, List.singleton_append]
    exact congrArg _ (ih ttm (engine (ttm - ttm0) ttm a).1)

/-- Claim C2 (confirmed): in the transform chain pricer the complex
coefficient array returned by the affine-expansion call for slice `i` is
passed as the initial condition of the call for slice `i+1`, the expansion is
integrated over the gap `t_i - t_{i-1}`, and the log-MGF grid used for
pricing slice `i` is computed fresh from that call and never carried across
slices — for every engine, slice pricer, initial coefficient state and
maturity chain. -/
theorem C2_transform_state_continuation {A M P : Type}
    (engine : ℚ → ℚ → A → A × M) (slicePricer : M → ℚ → P) (a0 : A)
    (ttms : List ℚ) :
    logsv_chain_pricer engine slicePricer a0 ttms =
      spec_transform_chain_prices engine slicePricer a0 0 ttms :=
  logsv_chain_pricer_loop_eq_spec engine slicePricer ttms 0 a0

/-!
## Claim C5
-/

/-- Claim C5 (code bug): the MC branch of `calibrate_model_params_to_chain`
(source line 185) unpacks the result of `get_randoms_for_chain_valuation`
into three targets, but the function returns a 4-tuple (source line 944),
so the call raises `ValueError` before the optimization starts and before any
objective evaluation — the frozen-randoms reuse the claim describes never
happens. -/
theorem C5_mc_randoms_unpack_mismatch :
    py_tuple_unpack_ok calibrate_mc_unpack_targets
      get_randoms_for_chain_valuation_returns = false := rfl

/-!
## Claims C6 and C7
-/

/-- Claim C6 (confirmed): under `ConstraintsType.MMA_MARTINGALE` the
calibrator registers exactly the inequality constraint `martingale_measure`
(`kappa2 - beta` of the parsed trial parameters) with the optimizer, and if
the minimizer honours the SLSQP inequality-constraint contract — on a
successful (converged) run every registered constraint evaluates within the
tolerance, `-tol <= g(res.x)` — then the parameter set returned by the
calibration satisfies `kappa2 - beta >= -tol`. -/
theorem C6_mma_martingale_constraint
    (minimize : Minimizer) (objective : ObjectiveFn)
    (ct : LogsvModelCalibrationType)
    (params0 params_min params_max : LogSvParams)
    (p0 : ℕ → ℝ) (bounds : List (ℝ × ℝ)) (tol : ℝ) (p : LogSvParams)
    (hpb : p0_bounds ct params0 params_min params_max = some (p0, bounds))
    (hsucc : (minimize objective p0
      (constraints_for ConstraintsType.MMA_MARTINGALE ct params0)
      bounds).success = true)
    (hcontract : (minimize objective p0
        (constraints_for ConstraintsType.MMA_MARTINGALE ct params0)
        bounds).success = true →
      ∀ g ∈ constraints_for ConstraintsType.MMA_MARTINGALE ct params0,
        ∀ v, g (minimize objective p0
          (constraints_for ConstraintsType.MMA_MARTINGALE ct params0)
          bounds).x = some v → -tol ≤ v)
    (hres : calibrate_model_params_to_chain minimize objective ct
      ConstraintsType.MMA_MARTINGALE params0 params_min params_max = some p) :
    -tol ≤ p.kappa2 - p.beta := by
  have hres' : parse_model_params ct params0
      (minimize objective p0
        (constraints_for ConstraintsType.MMA_MARTINGALE ct params0)
        bounds).x = some p := by
    simpa [calibrate_model_params_to_chain, hpb] using hres
  have hmm : martingale_measure ct params0
      (minimize objective p0
        (constraints_for ConstraintsType.MMA_MARTINGALE ct params0)
        bounds).x = some (p.kappa2 - p.beta) := by
    unfold martingale_measure
    rw [hres']
    rfl
  exact hcontract hsucc (martingale_measure ct params0)
    (by simp [constraints_for]) _ hmm

/-- Witness for C6 at concrete inputs: a minimizer that reports success at the
all-ones point, unit parameters, `PARAMS5` calibration and tolerance 0. -/
theorem C6_mma_martingale_constraint_witness :
    -(0 : ℝ) ≤ (mkLogSvParams 1 1 1 none 1 1).kappa2 -
      (mkLogSvParams 1 1 1 none 1 1).beta :=
  C6_mma_martingale_constraint
    (fun _ _ _ _ => ⟨fun _ => 1, true⟩) (fun _ => 0)
    LogsvModelCalibrationType.PARAMS5
    ⟨1, 1, 1, 1, 1, 1⟩ ⟨1, 1, 1, 1, 1, 1⟩ ⟨1, 1, 1, 1, 1, 1⟩
    (fun i => [(1 : ℝ), 1, 1, 1, 1].getD i 0)
    [((1 : ℝ), (1 : ℝ)), (1, 1), (1, 1), (1, 1), (1, 1)]
    0 (mkLogSvParams 1 1 1 none 1 1)
    rfl rfl
    (by
      intro _ g hg v hv
      simp only [constraints_for, List.mem_singleton] at hg
      subst hg
      simp [martingale_measure, parse_model_params, mkLogSvParams] at hv
      simp [← hv])
    rfl

/-- Claim C7 (corrected, amended part): the value returned by
`calibrate_model_params_to_chain` depends only on the solution vector
`res.x` of the optimizer result — two minimizers that agree on `res.x` yield
identical calibration results regardless of their convergence flags, so the
caller cannot inspect convergence from the returned value. -/
theorem C7_no_convergence_flag
    (m1 m2 : Minimizer) (objective : ObjectiveFn)
    (ct : LogsvModelCalibrationType) (cst : ConstraintsType)
    (params0 params_min params_max : LogSvParams)
    (h : ∀ obj p0 cons bounds,
      (m1 obj p0 cons bounds).x = (m2 obj p0 cons bounds).x) :
    calibrate_model_params_to_chain m1 objective ct cst params0 params_min
        params_max =
      calibrate_model_params_to_chain m2 objective ct cst params0 params_min
        params_max := by
  unfold calibrate_model_params_to_chain
  cases hpb : p0_bounds ct params0 params_min params_max with
  | none => rfl
  | some pb => simp only [h]

/-- Witness for C7 at concrete inputs: two constant minimizers with the same
point and opposite success flags. -/
theorem C7_no_convergence_flag_witness :
    calibrate_model_params_to_chain (fun _ _ _ _ => ⟨fun _ => 1, true⟩)
        (fun _ => 0) LogsvModelCalibrationType.PARAMS5
        ConstraintsType.UNCONSTRAINT
        ⟨1, 1, 1, 1, 1, 1⟩ ⟨1, 1, 1, 1, 1, 1⟩ ⟨1, 1, 1, 1, 1, 1⟩ =
      calibrate_model_params_to_chain (fun _ _ _ _ => ⟨fun _ => 1, false⟩)
        (fun _ => 0) LogsvModelCalibrationType.PARAMS5
        ConstraintsType.UNCONSTRAINT
        ⟨1, 1, 1, 1, 1, 1⟩ ⟨1, 1, 1, 1, 1, 1⟩ ⟨1, 1, 1, 1, 1, 1⟩ :=
  C7_no_convergence_flag _ _ _ _ _ _ _ _ (fun _ _ _ _ => rfl)

/-- Counterexample to claim C7 as stated: a NON-converged run
(`res.success = false`) silently returns a parameter set (`some ...`), and the
result is indistinguishable from the converged run with the same solution
vector — no diagnostics/convergence flag is surfaced on the returned value. -/
theorem C7_counterexample :
    calibrate_model_params_to_chain (fun _ _ _ _ => ⟨fun _ => 1, false⟩)
        (fun _ => 0) LogsvModelCalibrationType.PARAMS4
        ConstraintsType.UNCONSTRAINT
        ⟨1, 1, 1, 1, 1, 1⟩ ⟨1, 1, 1, 1, 1, 1⟩ ⟨1, 1, 1, 1, 1, 1⟩ =
      some ⟨1, 1, 1, 1, 1, 1⟩ ∧
    calibrate_model_params_to_chain (fun _ _ _ _ => ⟨fun _ => 1, false⟩)
        (fun _ => 0) LogsvModelCalibrationType.PARAMS4
        ConstraintsType.UNCONSTRAINT
        ⟨1, 1, 1, 1, 1, 1⟩ ⟨1, 1, 1, 1, 1, 1⟩ ⟨1, 1, 1, 1, 1, 1⟩ =
      calibrate_model_params_to_chain (fun _ _ _ _ => ⟨fun _ => 1, true⟩)
        (fun _ => 0) LogsvModelCalibrationType.PARAMS4
        ConstraintsType.UNCONSTRAINT
        ⟨1, 1, 1, 1, 1, 1⟩ ⟨1, 1, 1, 1, 1, 1⟩ ⟨1, 1, 1, 1, 1, 1⟩ :=
  ⟨rfl, rfl⟩

/-!
## Claim C8
-/

/-- Claim C8 (corrected): `v0_implied` returns the simplified formula
`atm - (beta^2 + volvol^2)*ttm/4` whenever the leverage magnitude STRICTLY
exceeds 1 (`|beta| > 1.0`, not `>= 1` as claimed) or the denominator
`12*beta*ttm` is within `1e-10` of zero; at `|beta| = 1` exactly, the full
square-root formula is used instead. -/
theorem C8_fallback_formula (atm beta volvol theta kappa1 ttm : ℝ)
    (h : 1 < |beta| ∨ |12 * beta * ttm| ≤ 1 / 10 ^ 10) :
    v0_implied atm beta volvol theta kappa1 ttm =
      atm - (beta ^ 2 + volvol ^ 2) * ttm / 4 := by
  simp only [v0_implied]
  split_ifs with h1 h2
  · ring
  · rcases h with h | h
    · exact absurd h h1
    · exact absurd h2 (not_lt.mpr h)
  · ring

/-- Witness for C8 at a concrete input with `|beta| = 2 > 1`. -/
theorem C8_fallback_formula_witness :
    v0_implied 1 2 0 0 0 1 = 1 - ((2 : ℝ) ^ 2 + 0 ^ 2) * 1 / 4 :=
  C8_fallback_formula 1 2 0 0 0 1 (Or.inl (by rw [abs_of_pos] <;> norm_num))

/-- Counterexample to claim C8 as stated: at leverage magnitude exactly 1
(`beta = 1`, with `atm = 1`, `volvol = 0`, `theta = 2`, `kappa1 = 1`,
`ttm = 1`) the function evaluates the full square-root formula and returns
`0`, not the simplified value `1 - (1 + 0)/4 = 3/4`. -/
theorem C8_counterexample :
    v0_implied 1 1 0 2 1 1 ≠ 1 - ((1 : ℝ) ^ 2 + 0 ^ 2) * 1 / 4 := by
  have h15 : Real.sqrt 225 = 15 := by
    rw [show (225 : ℝ) = 15 ^ 2 by norm_num,
      Real.sqrt_sq (by norm_num : (0 : ℝ) ≤ 15)]
  simp only [v0_implied]
  norm_num [h15]

/-!
## Claim C9
-/

/-- Claim C9 (confirmed): `LogSVPricer.simulate_vol_paths` dispatches on the
Hurst exponent with the stated `1e-4` tolerance at the boundary — the
standard scheme iff `H >= 0.5 - 1e-4`, the rough scheme iff
`0 < H < 0.5 - 1e-4`, and a raise otherwise (iff `H <= 0`); within the rough
scheme the lag parameter is the constant 1 (asserted equal to 1 in both rough
simulators), and an increasing kernel (`alpha = H - 0.5 > 0`, reachable by
calling the rough terminal simulator directly with `0.5 < H <= 1`) raises
`NotImplementedError` rather than falling back. -/
theorem C9_dispatch_and_guard :
    (∀ H : ℚ,
      (simulate_vol_paths_H_dispatch H = VolPathScheme.standard ↔
        1/2 - 1/10000 ≤ H) ∧
      (simulate_vol_paths_H_dispatch H = VolPathScheme.rough ↔
        0 < H ∧ H < 1/2 - 1/10000) ∧
      (simulate_vol_paths_H_dispatch H = VolPathScheme.wrongH ↔ H ≤ 0)) ∧
    simulate_roughvol_kappa_lag = 1 ∧ simulate_rough_dt_kappa = 1 ∧
    (∀ H : ℚ, 1/2 < H → H ≤ 1 →
      simulate_rough_logsv_guard 1 true H =
        Except.error PyError.notImplementedError) := by
  refine ⟨fun H => ?_, rfl, rfl, fun H hlo hhi => ?_⟩
  · unfold simulate_vol_paths_H_dispatch
    by_cases hstd : 1/2 - 1/10000 ≤ H
    · rw [if_pos hstd]
      refine ⟨⟨fun _ => hstd, fun _ => rfl⟩,
        ⟨fun hcon => absurd hcon (by simp),
          fun hcon => absurd hstd (not_le.mpr hcon.2)⟩,
        ⟨fun hcon => absurd hcon (by simp),
          fun hcon => absurd hstd (not_le.mpr (by linarith))⟩⟩
    · rw [if_neg hstd]
      by_cases hr : 0 < H ∧ H < 1/2 - 1/10000
      · rw [if_pos hr]
        refine ⟨⟨fun hcon => absurd hcon (by simp), fun hcon => absurd hcon hstd⟩,
          ⟨fun _ => hr, fun _ => rfl⟩,
          ⟨fun hcon => absurd hcon (by simp),
            fun hcon => absurd hr.1 (not_lt.mpr hcon)⟩⟩
      · rw [if_neg hr]
        have hle : H ≤ 0 := by
          rcases not_and_or.mp hr with h | h
          · exact not_lt.mp h
          · exact absurd (not_lt.mp h) hstd
        refine ⟨⟨fun hcon => absurd hcon (by simp), fun hcon => absurd hcon hstd⟩,
          ⟨fun hcon => absurd hcon (by simp), fun hcon => absurd hcon hr⟩,
          ⟨fun _ => hle, fun _ => rfl⟩⟩
  · have hcond : -(1/2 : ℚ) < H - 1/2 ∧ H - 1/2 ≤ 1/2 :=
      ⟨by linarith, by linarith⟩
    have hpos : (0 : ℚ) < H - 1/2 := by linarith
    simp [simulate_rough_logsv_guard, hcond, hpos]
    split_ifs with g1 g2
    · exfalso; linarith [g1 (by linarith)]
    · rfl
    · exfalso; exact g2 (by linarith)

/-- Witness for C9 at a concrete input: `H = 3/4` is an increasing kernel and
the rough terminal simulator guard raises `NotImplementedError`. -/
theorem C9_dispatch_and_guard_witness :
    simulate_rough_logsv_guard 1 true (3/4) =
      Except.error PyError.notImplementedError :=
  C9_dispatch_and_guard.2.2.2 (3/4) (by norm_num) (by norm_num)

/-!
## Claim C10
-/

/-- Claim C10 (corrected): every call of `calc_mc_vols` with
`is_annuity_measure = True`, or with `forwards`/`strikes_ttms` lists whose
lengths differ from the number of tenors, fails before any simulation is run
(the error is independent of the simulator, so no partial output is
produced); the exception is `AssertionError` whenever `strikes_ttms` is
non-empty, while in the degenerate all-empty case the leading-element access
`strikes_ttms[0]` raises `IndexError` instead. -/
theorem C10_checks_before_simulation {Sim Out : Type} (post : Sim → Out)
    (tenors : List ℚ) (forwards : List (List ℚ))
    (strikes_ttms : List (List (List ℚ))) (b : Bool)
    (h : b = true ∨ forwards.length ≠ tenors.length ∨
      strikes_ttms.length ≠ tenors.length) :
    ∃ e, (∀ sim : Unit → Sim,
        calc_mc_vols sim post tenors forwards strikes_ttms b =
          Except.error e) ∧
      (strikes_ttms ≠ [] → e = PyError.assertionError) := by
  by_cases hs : strikes_ttms.length = tenors.length
  · cases strikes_ttms with
    | nil =>
      exact ⟨PyError.indexError, fun sim => by simp [calc_mc_vols, hs],
        fun hne => absurd rfl hne⟩
    | cons s0 tl =>
      by_cases h1 : s0.length = 1
      · by_cases h2 : forwards.length = tenors.length
        · by_cases h3 : ∀ fwd ∈ forwards, fwd.length = 1
          · have hb : b = true := by
              rcases h with h | h | h
              · exact h
              · exact absurd h2 h
              · exact absurd hs h
            exact ⟨PyError.assertionError,
              fun sim => by simp [calc_mc_vols, hs, h1, h2, h3, hb],
              fun _ => rfl⟩
          · exact ⟨PyError.assertionError,
              fun sim => by simp [calc_mc_vols, hs, h1, h2, h3],
              fun _ => rfl⟩
        · exact ⟨PyError.assertionError,
            fun sim => by simp [calc_mc_vols, hs, h1, h2],
            fun _ => rfl⟩
      · exact ⟨PyError.assertionError,
          fun sim => by simp [calc_mc_vols, hs, h1],
          fun _ => rfl⟩
  · exact ⟨PyError.assertionError,
      fun sim => by simp [calc_mc_vols, hs],
      fun _ => rfl⟩

/-- Witness for C10 at a concrete input: matching lengths and
`is_annuity_measure = True` give an `AssertionError` for every simulator. -/
theorem C10_checks_before_simulation_witness :
    ∃ e, (∀ sim : Unit → Unit,
        calc_mc_vols sim (fun _ => ()) [1] [[1]] [[[1]]] true =
          Except.error e) ∧
      (([[[(1 : ℚ)]]] : List (List (List ℚ))) ≠ [] →
        e = PyError.assertionError) :=
  C10_checks_before_simulation (fun _ => ()) [1] [[1]] [[[1]]] true
    (Or.inl rfl)

/-- Counterexample to claim C10 as stated: with empty tenors, forwards and
strikes and `is_annuity_measure = True` the function raises `IndexError`
(from `strikes_ttms[0]`), not the claimed `AssertionError`. -/
theorem C10_counterexample :
    calc_mc_vols (fun _ => ()) (fun _ => ()) ([] : List ℚ) [] [] true =
      Except.error PyError.indexError ∧
    PyError.indexError ≠ PyError.assertionError :=
  ⟨rfl, by decide⟩

end StochVol
